import Mathlib

set_option maxRecDepth 10000

/-!
Verification of the goridge RPC transport core: a shallow embedding of the
frame relay (`internal.ReceiveFrame`) and the server-side RPC codec
(`pkg/rpc/codec.go`) of the goridge repository, together with theorems
settling the specification's claims about them.

Bytes are modelled as `Nat` values below 256, byte strings as `List Nat`,
and 32-bit machine integers as `Nat` reduced modulo `2 ^ 32` where Go would
overflow.  Fallible Go functions return a `GoResult`, whose `panic`
constructor records a Go runtime panic (failed type assertion, slice bounds
out of range).  External serialization libraries (protobuf, JSON, msgpack,
gob) are parameters of the embedding, collected in the `Libs` structure.
-/

namespace Goridge

/-- Encode a 32-bit value as four little-endian bytes. -/
def le32 (n : Nat) : List Nat :=
  [n % 256, n / 256 % 256, n / 65536 % 256, n / 16777216 % 256]

/-- Decode up to four little-endian bytes into a 32-bit value. -/
def readLE32 (bs : List Nat) : Nat :=
  match bs with
  | [a, b, c, d] => a + 256 * b + 65536 * c + 16777216 * d
  | _ => 0

/-- Split a byte list into 32-bit little-endian words (any incomplete
trailing group is dropped, matching a 4-byte stride over the buffer). -/
def toWords : List Nat → List Nat
  | a :: b :: c :: d :: rest => readLE32 [a, b, c, d] :: toWords rest
  | _ => []

/-- One shift-and-conditionally-xor round of the reflected CRC-32.
Modelled from the spec: reversed polynomial 0xEDB88320. -/
def crcRound (c : Nat) : Nat :=
  if c % 2 = 1 then (c / 2) ^^^ 0xEDB88320 else c / 2

/-- Fold one byte into a running CRC-32 state. -/
def crcByte (crc b : Nat) : Nat :=
  let c := crc ^^^ (b % 256)
  crcRound (crcRound (crcRound (crcRound (crcRound (crcRound (crcRound (crcRound c)))))))

/-- CRC-32 of a byte list.  Modelled from the spec: IEEE reversed polynomial
0xEDB88320, initial value 0xFFFFFFFF, final XOR 0xFFFFFFFF (the zlib/gzip
variant), computed bitwise. -/
def crc32 (bs : List Nat) : Nat :=
  (bs.foldl crcByte 0xFFFFFFFF) ^^^ 0xFFFFFFFF

/-- Modelled from the spec: flag bit CODEC_RAW (reference assignment §6). -/
def CodecRaw : Nat := 0x1
/-- Modelled from the spec: flag bit CODEC_JSON. -/
def CodecJSON : Nat := 0x2
/-- Modelled from the spec: flag bit CODEC_MSGPACK. -/
def CodecMsgpack : Nat := 0x4
/-- Modelled from the spec: flag bit CODEC_GOB. -/
def CodecGob : Nat := 0x8
/-- Modelled from the spec: flag bit CODEC_PROTO. -/
def CodecProto : Nat := 0x10
/-- Modelled from the spec: control flag bit ERROR. -/
def ERROR : Nat := 0x20
/-- Protocol version 1 (`frame.Version1`). -/
def Version1 : Nat := 1
/-- Bytes per option word (`frame.WORD`). -/
def WORD : Nat := 4

/-- Modelled from the spec: a Frame is a byte-level header (the fixed 12
bytes followed by `4 * (HL - 3)` option bytes) together with a payload.
The `pkg/frame` implementation itself is not among the provided sources;
its layout follows spec §3 and §6. -/
structure Frame where
  header : List Nat
  payload : List Nat
  deriving DecidableEq, Repr

namespace Frame

/-- Modelled from the spec: `new()` creates a frame whose 12-byte header has
`HL = 3`, `version = 1`, `flags = 0`, `payload_len = 0`, `crc = 0`. -/
def NewFrame : Frame :=
  { header := [0x31, 0, 0, 0, 0, 0, 0, 0, 0, 0, 0, 0], payload := [] }

/-- Modelled from the spec: `reset()` zeroes the state for pool reuse,
returning the frame to its pristine `new()` shape. -/
def Reset (_ : Frame) : Frame := NewFrame

/-- Modelled from the spec: the header-length nibble (high nibble of byte 0),
in 32-bit words. -/
def ReadHL (f : Frame) : Nat := (f.header.getD 0 0) / 16

/-- Modelled from the spec: overwrite the HL nibble of byte 0. -/
def writeHL (f : Frame) (hl : Nat) : Frame :=
  { f with header := f.header.set 0 ((hl % 16) * 16 + (f.header.getD 0 0) % 16) }

/-- Modelled from the spec: `set_version` writes the low nibble of byte 0. -/
def WriteVersion (f : Frame) (v : Nat) : Frame :=
  { f with header := f.header.set 0 (((f.header.getD 0 0) / 16) * 16 + v % 16) }

/-- Modelled from the spec: the flags byte (byte 1). -/
def ReadFlags (f : Frame) : Nat := f.header.getD 1 0

/-- Modelled from the spec: write the flags byte.  The spec's error handler
"sets the ERROR flag (replacing codec bits)", so `WriteFlags` assigns the
flags byte. -/
def WriteFlags (f : Frame) (flags : Nat) : Frame :=
  { f with header := f.header.set 1 (flags % 256) }

/-- Modelled from the spec: `payload_length`, bytes 4..7 little-endian. -/
def ReadPayloadLen (f : Frame) : Nat :=
  readLE32 ((f.header.drop 4).take 4)

/-- Modelled from the spec: store the payload length in bytes 4..7. -/
def WritePayloadLen (f : Frame) (n : Nat) : Frame :=
  { f with header := f.header.take 4 ++ le32 (n % 4294967296) ++ f.header.drop 8 }

/-- Modelled from the spec: append option words (little-endian) after the
header and grow the HL nibble by their count. -/
def WriteOptions (f : Frame) (opts : List Nat) : Frame :=
  let f := f.writeHL (f.ReadHL + opts.length)
  { f with header := f.header ++ opts.flatMap (fun o => le32 (o % 4294967296)) }

/-- Modelled from the spec: raw option bytes received from the wire are
appended to the header verbatim (`AppendOptions`); HL already accounts
for them. -/
def AppendOptions (f : Frame) (raw : List Nat) : Frame :=
  { f with header := f.header ++ raw }

/-- Modelled from the spec: decode the trailing header words into integers. -/
def ReadOptions (f : Frame) : List Nat := toWords (f.header.drop 12)

/-- Modelled from the spec: `write_crc` computes CRC-32 over the first 8
header bytes and stores it little-endian in bytes 8..11. -/
def WriteCRC (f : Frame) : Frame :=
  { f with header :=
      f.header.take 8 ++ le32 (crc32 (f.header.take 8)) ++ f.header.drop 12 }

/-- Modelled from the spec: `verify_crc` recomputes the CRC over the first 8
header bytes and compares it with bytes 8..11. -/
def VerifyCRC (f : Frame) : Bool :=
  crc32 (f.header.take 8) = readLE32 (((f.header.drop 8).take 4))

/-- Modelled from the spec: replace the payload bytes (`WritePayload` copies
the given bytes into the frame). -/
def WritePayload (f : Frame) (bs : List Nat) : Frame :=
  { f with payload := bs }

/-- Modelled from the spec: the payload accessor. -/
def Payload (f : Frame) : List Nat := f.payload

end Frame

/-- The error values the embedded code can return, following the spec's
taxonomy (§7).  Messages keep only their input-dependent part: the constant
English text wrapped around them by the `errors` package is elided. -/
inductive GErr where
  | eof
  | unexpectedEOF
  | fileNotFound (msg : List Nat)
  | validationFailed (msg : List Nat)
  | invalidFrame
  | opErr (op : String) (msg : List Nat)
  | handleErrorReturn (respError : List Nat)
  | plainErr (msg : List Nat)
  deriving DecidableEq, Repr

/-- Outcome of a Go call: a normal return value, a returned Go error, or a
runtime panic. -/
inductive GoResult (α : Type) where
  | ok (a : α)
  | err (e : GErr)
  | panic (msg : String)
  deriving DecidableEq, Repr

/-- The byte stream underlying a relay, with the read-deadline capability
used by the CRC-failure recovery path.  `deadline` records the number of
seconds of the last successfully applied read deadline. -/
structure Stream where
  data : List Nat
  supportsDeadline : Bool
  setDeadlineOk : Bool
  deadline : Option Nat := none
  deriving DecidableEq, Repr

/-- `io.ReadFull`: read exactly `n` bytes; with fewer than `n` available it
consumes what is there and reports `EOF` (nothing was read) or
`ErrUnexpectedEOF` (a partial read). -/
def readFull (s : Stream) (n : Nat) : GoResult (List Nat) × Stream :=
  if n ≤ s.data.length then
    (.ok (s.data.take n), { s with data := s.data.drop n })
  else if s.data.length = 0 then
    (.err .eof, s)
  else
    (.err .unexpectedEOF, { s with data := [] })

/-- `io.ReadAll`: drain the remaining bytes (a pure byte-list stream cannot
fail mid-drain, so the model's drain always succeeds). -/
def readAll (s : Stream) : List Nat × Stream :=
  (s.data, { s with data := [] })

/-- The 12-byte foreign-output sentinel, `[]byte("Could not op")`
(`src/unnamed/part_001` line 14). -/
def sentinelBytes : List Nat :=
  [67, 111, 117, 108, 100, 32, 110, 111, 116, 32, 111, 112]

/-- The bytes of the fixed message `"file not found"` used when the
sentinel is seen but nothing further can be drained. -/
def fileNotFoundMsg : List Nat :=
  [102, 105, 108, 101, 32, 110, 111, 116, 32, 102, 111, 117, 110, 100]

/-- The bytes of Go's `io.ErrUnexpectedEOF` message, `"unexpected EOF"`. -/
def unexpectedEOFMsg : List Nat :=
  [117, 110, 101, 120, 112, 101, 99, 116, 101, 100, 32, 69, 79, 70]

/-- `internal.ReceiveFrame` (`src/unnamed/part_001`): read the 12-byte
header, detect the foreign-output sentinel, read options when `HL > 3`,
verify the header CRC (with the deadline-and-drain recovery on mismatch),
then read the payload.  In the payload EOF branch the source returns the
stale `err` variable — which is `nil` at that point — so the model returns
`ok` there, mirroring the source. -/
def ReceiveFrame (s : Stream) (fr : Frame) : GoResult Unit × Frame × Stream :=
  match readFull s 12 with
  | (.err e, s1) => (.err e, fr, s1)
  | (.panic m, s1) => (.panic m, fr, s1)
  | (.ok hdr, s1) =>
    let fr := { fr with header := hdr }
    if hdr = sentinelBytes then
      let (data, s2) := readAll s1
      if 0 < data.length then
        (.err (.fileNotFound (hdr ++ data)), fr, s2)
      else
        (.err (.fileNotFound fileNotFoundMsg), fr, s2)
    else
      let step2 : GoResult Unit × Frame × Stream :=
        if 3 < fr.ReadHL then
          match readFull s1 ((fr.ReadHL - 3) * WORD) with
          | (.err .eof, s2) => (.err .eof, fr, s2)
          | (.err _, s2) => (.err (.opErr "goridge_frame_receive" unexpectedEOFMsg), fr, s2)
          | (.panic m, s2) => (.panic m, fr, s2)
          | (.ok opts, s2) => (.ok (), fr.AppendOptions opts, s2)
        else (.ok (), fr, s1)
      match step2 with
      | (.err e, fr, s2) => (.err e, fr, s2)
      | (.panic m, fr, s2) => (.panic m, fr, s2)
      | (.ok _, fr, s2) =>
        if fr.VerifyCRC then
          let pl := fr.ReadPayloadLen
          if pl = 0 then (.ok (), fr, s2)
          else
            match readFull s2 pl with
            | (.err .eof, s3) => (.ok (), fr, s3)
            | (.err _, s3) =>
              (.err (.opErr "goridge_frame_receive" unexpectedEOFMsg), fr, s3)
            | (.panic m, s3) => (.panic m, fr, s3)
            | (.ok pb, s3) => (.ok (), fr.WritePayload pb, s3)
        else
          if s2.supportsDeadline then
            if s2.setDeadlineOk then
              let s2 := { s2 with deadline := some 2 }
              let (resp, s3) := readAll s2
              (.err (.validationFailed (fr.header ++ resp)), fr, s3)
            else
              (.err (.validationFailed fr.header), fr, s2)
          else
            (.err (.validationFailed fr.header), fr, s2)

/-- The bytes of an ASCII string (all literals in the sources are ASCII,
where UTF-8 bytes and code points coincide). -/
def strBytes (s : String) : List Nat := s.data.map Char.toNat

/-- The per-request codec table (`c.codec : sync.Map`), an association list
from sequence id to stored codec byte. -/
abbrev Table := List (Nat × Nat)

/-- `sync.Map.Load`: the stored codec byte for a key, if present. -/
def tblLookup (k : Nat) : Table → Option Nat
  | [] => none
  | (k2, v) :: t => if k2 = k then some v else tblLookup k t

/-- Remove every entry with the given key. -/
def tblRemove (k : Nat) (t : Table) : Table :=
  t.filter (fun p => p.1 != k)

/-- `sync.Map.Store`: insert or replace the entry for a key. -/
def tblStore (k v : Nat) (t : Table) : Table :=
  (k, v) :: tblRemove k t

/-- `sync.Map.LoadAndDelete`: in one step, return the stored value (if any)
and remove the entry. -/
def tblLoadAndDelete (k : Nat) (t : Table) : Option Nat × Table :=
  (tblLookup k t, tblRemove k t)

/-- The `net/rpc` request header fields the codec fills in
(`rpc.Request`): sequence number and method name (as bytes). -/
structure RpcRequest where
  Seq : Nat
  ServiceMethod : List Nat
  deriving DecidableEq, Repr

/-- The `net/rpc` response header fields the codec consumes
(`rpc.Response`): sequence number, method name, and error string. -/
structure RpcResponse where
  Seq : Nat
  ServiceMethod : List Nat
  Error : List Nat
  deriving DecidableEq, Repr

/-- A request or response body (`any` in Go): a `[]byte`, a `*[]byte`, or
an opaque value of any other type. -/
inductive Body where
  | byteSlice (bs : List Nat)
  | byteSlicePtr (bs : List Nat)
  | value (tag : Nat)
  deriving DecidableEq, Repr

/-- The external serialization libraries the codec dispatches to
(protobuf, JSON, msgpack, gob).  They are opaque to this repository, so the
embedding takes them as parameters: marshalling either fails with an error
message or yields the encoded bytes, and unmarshalling yields the decoded
body. -/
structure Libs where
  isProtoMessage : Body → Bool
  protoMarshal : Body → Except (List Nat) (List Nat)
  jsonMarshal : Body → Except (List Nat) (List Nat)
  msgpackMarshal : Body → Except (List Nat) (List Nat)
  gobEncode : Body → Except (List Nat) (List Nat)
  protoUnmarshal : List Nat → Body → Except (List Nat) Body
  jsonUnmarshal : List Nat → Body → Except (List Nat) Body
  msgpackUnmarshal : List Nat → Body → Except (List Nat) Body
  gobDecode : List Nat → Body → Except (List Nat) Body

/-- The mutable state of a `Codec` instance, plus the frames sent through
its relay so far.  The `bytes.Buffer` pool is pure local scratch (buffers
are reset on return and never observable), so it is elided; the frame pool
is kept because the claims speak about it. -/
structure CState where
  table : Table
  pool : List Frame
  retained : Option Frame
  sent : List Frame
  deriving DecidableEq, Repr

/-- `c.getFrame()`: take a pooled frame, or a fresh one when the pool is
empty (`sync.Pool.New`). -/
def getFrame (st : CState) : Frame × CState :=
  match st.pool with
  | [] => (Frame.NewFrame, st)
  | f :: rest => (f, { st with pool := rest })

/-- `c.putFrame(f)`: reset the frame and return it to the pool. -/
def putFrame (f : Frame) (st : CState) : CState :=
  { st with pool := f.Reset :: st.pool }

/-- Message of the structural option-count error. -/
def shouldBe2Msg : List Nat := strBytes "should be 2 options. SEQ_ID and METHOD_LEN"

/-- Message sent when a Raw-codec body is neither `[]byte` nor `*[]byte`. -/
def unknownRawMsg : List Nat := strBytes "unknown Raw payload type"

/-- Message of the write-side unknown-codec error (`errors.E(op,
errors.Str("unknown codec")).Error()`). -/
def unknownCodecMsg : List Nat := strBytes "goridge_write_response: unknown codec"

/-- Message of the read-side unknown-codec error. -/
def unknownDecoderMsg : List Nat := strBytes "unknown decoder used in frame"

/-- Message of the non-proto body error on the proto read path. -/
def notProtoMsg : List Nat := strBytes "message type is not a proto"

/-- `c.handleError(r, fr, err)` (`codec.go` lines 216..235): build payload
`method_name || error_string`, set the `ERROR` flag, write payload length
and CRC, send via the relay with the send error swallowed, and return an
error built from `r.Error` (not from the handled message). -/
def handleError (r : RpcResponse) (fr : Frame) (errMsg : List Nat) (st : CState) :
    GoResult Unit × CState :=
  let buf := r.ServiceMethod ++ errMsg
  let fr := fr.WriteFlags ERROR
  let fr := fr.WritePayloadLen buf.length
  let fr := fr.WritePayload buf
  let fr := fr.WriteCRC
  (.err (.handleErrorReturn r.Error), { st with sent := st.sent ++ [fr] })

/-- The body of `Codec.WriteResponse` after the pooled frame is acquired
(`codec.go` lines 77..213): write the two options and the version, atomically
load-and-delete the remembered codec (falling back to the `CODEC_GOB` flag
when absent), divert to `handleError` when `r.Error` is non-empty, and
otherwise dispatch on the codec byte.  When no codec was remembered the
source evaluates `codec.(byte)` on a nil interface, a runtime panic. -/
def writeResponseCore (L : Libs) (r : RpcResponse) (body : Body) (fr : Frame)
    (st : CState) : GoResult Unit × CState :=
  let fr := fr.WriteOptions [r.Seq % 4294967296, r.ServiceMethod.length % 4294967296]
  let fr := fr.WriteVersion Version1
  let (codec, table) := tblLoadAndDelete r.Seq st.table
  let st := { st with table := table }
  let fr := match codec with
            | none => fr.WriteFlags CodecGob
            | some cb => fr.WriteFlags cb
  if r.Error ≠ [] then
    handleError r fr r.Error st
  else
    match codec with
    | none => (.panic "interface conversion: interface is nil, not byte", st)
    | some cb =>
      if cb &&& CodecProto ≠ 0 then
        if L.isProtoMessage body then
          match L.protoMarshal body with
          | .error e => handleError r fr e st
          | .ok d =>
            let buf := r.ServiceMethod ++ d
            let fr := fr.WritePayloadLen buf.length
            let fr := fr.WritePayload buf
            let fr := fr.WriteCRC
            (.ok (), { st with sent := st.sent ++ [fr] })
        else
          (.panic "interface conversion: body is not a proto.Message", st)
      else if cb &&& CodecRaw ≠ 0 then
        match body with
        | .byteSlice data =>
          let buf := r.ServiceMethod ++ data
          let fr := fr.WritePayloadLen buf.length
          let fr := fr.WritePayload buf
          let fr := fr.WriteCRC
          (.ok (), { st with sent := st.sent ++ [fr] })
        | .byteSlicePtr data =>
          let buf := r.ServiceMethod ++ data
          let fr := fr.WritePayloadLen buf.length
          let fr := fr.WritePayload buf
          let fr := fr.WriteCRC
          (.ok (), { st with sent := st.sent ++ [fr] })
        | .value _ => handleError r fr unknownRawMsg st
      else if cb &&& CodecJSON ≠ 0 then
        match L.jsonMarshal body with
        | .error e => handleError r fr e st
        | .ok d =>
          let buf := r.ServiceMethod ++ d
          let fr := fr.WritePayloadLen buf.length
          let fr := fr.WritePayload buf
          let fr := fr.WriteCRC
          (.ok (), { st with sent := st.sent ++ [fr] })
      else if cb &&& CodecMsgpack ≠ 0 then
        match L.msgpackMarshal body with
        | .error e => (.err (.opErr "goridge_write_response" e), st)
        | .ok b =>
          let buf := r.ServiceMethod ++ b
          let fr := fr.WritePayloadLen buf.length
          let fr := fr.WritePayload buf
          let fr := fr.WriteCRC
          (.ok (), { st with sent := st.sent ++ [fr] })
      else if cb &&& CodecGob ≠ 0 then
        match L.gobEncode body with
        | .error e => (.err (.opErr "goridge_write_response" e), st)
        | .ok d =>
          let buf := r.ServiceMethod ++ d
          let fr := fr.WritePayloadLen buf.length
          let fr := fr.WritePayload buf
          let fr := fr.WriteCRC
          (.ok (), { st with sent := st.sent ++ [fr] })
      else
        handleError r fr unknownCodecMsg st

/-- `Codec.WriteResponse` (`codec.go` lines 71..214): acquire a pooled frame
and run the body; the deferred `putFrame` returns the frame to the pool on
every exit, panics included. -/
def writeResponse (L : Libs) (r : RpcResponse) (body : Body) (st : CState) :
    GoResult Unit × CState :=
  let (fr, st) := getFrame st
  let (res, st) := writeResponseCore L r body fr st
  (res, putFrame fr st)

/-- `Codec.storeCodec` (`codec.go` lines 274..291): remember the request's
codec keyed by sequence id, testing the flag bits in the order proto, JSON,
raw, msgpack, gob, with gob as the default. -/
def storeCodec (seq flag : Nat) (t : Table) : Table :=
  if flag &&& CodecProto ≠ 0 then tblStore seq CodecProto t
  else if flag &&& CodecJSON ≠ 0 then tblStore seq CodecJSON t
  else if flag &&& CodecRaw ≠ 0 then tblStore seq CodecRaw t
  else if flag &&& CodecMsgpack ≠ 0 then tblStore seq CodecMsgpack t
  else if flag &&& CodecGob ≠ 0 then tblStore seq CodecGob t
  else tblStore seq CodecGob t

/-- `Codec.ReadRequestHeader` (`codec.go` lines 245..272): receive into a
pooled frame, return receive errors with the frame pooled again, require
exactly two options, take `Seq` from option 0 and the method name as the
first `opts[1]` payload bytes (an unguarded slice: when `opts[1]` exceeds
the payload length the source panics and the frame is not returned to the
pool), retain the frame, and remember the codec. -/
def readRequestHeader (st : CState) (s : Stream) :
    GoResult RpcRequest × CState × Stream :=
  let (f, st) := getFrame st
  match ReceiveFrame s f with
  | (.err e, f, s) => (.err e, putFrame f st, s)
  | (.panic m, _, s) => (.panic m, st, s)
  | (.ok _, f, s) =>
    let opts := f.ReadOptions
    if opts.length ≠ 2 then
      (.err .invalidFrame, putFrame f st, s)
    else
      let seq := opts.getD 0 0
      let mlen := opts.getD 1 0
      if f.Payload.length < mlen then
        (.panic "slice bounds out of range", st, s)
      else
        (.ok { Seq := seq, ServiceMethod := f.Payload.take mlen },
         { st with retained := some f, table := storeCodec seq f.ReadFlags st.table },
         s)

/-- `Codec.ReadRequestBody` (`codec.go` lines 295..388): a nil `out` returns
success at once, before the deferred `putFrame` is even registered; any
other path returns the retained frame to the pool on exit and decodes the
post-method payload bytes under the remembered flags, with per-codec
structural re-checks.  The unguarded `payload[opts[1]:]` slice panics when
`opts[1]` exceeds the payload length. -/
def readRequestBody (L : Libs) (out : Option Body) (st : CState) :
    GoResult (Option Body) × CState :=
  match out with
  | none => (.ok none, st)
  | some body =>
    match st.retained with
    | none => (.panic "invalid memory address or nil pointer dereference", st)
    | some f =>
      let flags := f.ReadFlags
      let res : GoResult (Option Body) :=
        if flags &&& CodecProto ≠ 0 then
          let opts := f.ReadOptions
          if opts.length ≠ 2 then .err (.opErr "goridge_read_request_body" shouldBe2Msg)
          else if f.Payload.length < opts.getD 1 0 then .panic "slice bounds out of range"
          else
            let payload := f.Payload.drop (opts.getD 1 0)
            if payload.length = 0 then .ok (some body)
            else if L.isProtoMessage body then
              match L.protoUnmarshal payload body with
              | .error e => .err (.opErr "goridge_read_request_body" e)
              | .ok b => .ok (some b)
            else .err (.opErr "goridge_read_request_body" notProtoMsg)
        else if flags &&& CodecJSON ≠ 0 then
          let opts := f.ReadOptions
          if opts.length ≠ 2 then .err (.opErr "goridge_read_request_body" shouldBe2Msg)
          else if f.Payload.length < opts.getD 1 0 then .panic "slice bounds out of range"
          else
            let payload := f.Payload.drop (opts.getD 1 0)
            if payload.length = 0 then .ok (some body)
            else
              match L.jsonUnmarshal payload body with
              | .error e => .err (.plainErr e)
              | .ok b => .ok (some b)
        else if flags &&& CodecGob ≠ 0 then
          let opts := f.ReadOptions
          if opts.length ≠ 2 then .err (.opErr "goridge_read_request_body" shouldBe2Msg)
          else if f.Payload.length < opts.getD 1 0 then .panic "slice bounds out of range"
          else
            let payload := f.Payload.drop (opts.getD 1 0)
            if payload.length = 0 then .ok (some body)
            else
              match L.gobDecode payload body with
              | .error e => .err (.opErr "goridge_read_request_body" e)
              | .ok b => .ok (some b)
        else if flags &&& CodecRaw ≠ 0 then
          let opts := f.ReadOptions
          if opts.length ≠ 2 then .err (.opErr "goridge_read_request_body" shouldBe2Msg)
          else if f.Payload.length < opts.getD 1 0 then .panic "slice bounds out of range"
          else
            let payload := f.Payload.drop (opts.getD 1 0)
            if payload.length = 0 then .ok (some body)
            else
              match body with
              | .byteSlicePtr bs => .ok (some (.byteSlicePtr (bs ++ payload)))
              | _ => .ok (some body)
        else if flags &&& CodecMsgpack ≠ 0 then
          let opts := f.ReadOptions
          if opts.length ≠ 2 then .err (.opErr "goridge_read_request_body" shouldBe2Msg)
          else if f.Payload.length < opts.getD 1 0 then .panic "slice bounds out of range"
          else
            let payload := f.Payload.drop (opts.getD 1 0)
            if payload.length = 0 then .ok (some body)
            else
              match L.msgpackUnmarshal payload body with
              | .error e => .err (.plainErr e)
              | .ok b => .ok (some b)
        else .err (.opErr "goridge_read_request_body" unknownDecoderMsg)
      (res, putFrame f st)

/-! ### Concrete fixtures used by the theorems -/

/-- A trivial instantiation of the external serialization libraries, for
running the codec on concrete inputs. -/
def L0 : Libs :=
  { isProtoMessage := fun _ => false
    protoMarshal := fun _ => .error []
    jsonMarshal := fun _ => .ok []
    msgpackMarshal := fun _ => .ok []
    gobEncode := fun _ => .ok []
    protoUnmarshal := fun _ b => .ok b
    jsonUnmarshal := fun _ b => .ok b
    msgpackUnmarshal := fun _ b => .ok b
    gobDecode := fun _ b => .ok b }

/-- A codec whose table, pool, retained frame and sent list are all empty. -/
def st0 : CState := { table := [], pool := [], retained := none, sent := [] }

/-- First 8 header bytes of a frame with `HL = 3`, `version = 1`, gob flag,
and `payload_length = 5`. -/
def truncHeader8 : List Nat := [0x31, 8, 0, 0] ++ le32 5

/-- A stream carrying a CRC-valid header announcing 5 payload bytes and then
ending: EOF strikes before any payload byte. -/
def truncStream : Stream :=
  { data := truncHeader8 ++ le32 (crc32 truncHeader8),
    supportsDeadline := false, setDeadlineOk := false }

/-- First 8 header bytes of a frame with `HL = 5` (two options), msgpack
flag, `payload_length = 0`. -/
def c10Header8 : List Nat := [0x51, 4, 0, 0] ++ le32 0

/-- A CRC-valid two-option frame whose second option (method-name length 5)
exceeds its payload length 0. -/
def c10Stream : Stream :=
  { data := (c10Header8 ++ le32 (crc32 c10Header8)) ++ le32 7 ++ le32 5,
    supportsDeadline := false, setDeadlineOk := false }

/-- A stream containing exactly the 12 sentinel bytes and nothing more. -/
def sentinelOnly : Stream :=
  { data := sentinelBytes, supportsDeadline := false, setDeadlineOk := false }

/-- A codec state holding a retained frame and an empty frame pool. -/
def stRetained : CState :=
  { table := [], pool := [], retained := some Frame.NewFrame, sent := [] }

/-- Libraries whose msgpack marshaller always fails. -/
def msgpackFailLibs : Libs :=
  { L0 with msgpackMarshal := fun _ => .error (strBytes "msgpack marshal failed") }

/-- A codec state remembering the msgpack codec for sequence id 5. -/
def stMsg : CState :=
  { table := [(5, CodecMsgpack)], pool := [], retained := none, sent := [] }

/-- A response for sequence id 5, method name byte `M`, no error. -/
def respMsg : RpcResponse := { Seq := 5, ServiceMethod := [77], Error := [] }

/-- First 8 header bytes of an `HL = 5`, JSON-flagged, empty-payload frame. -/
def c8Header8 : List Nat := [0x51, 2, 0, 0] ++ le32 0

/-- A CRC-valid two-option frame whose method-name length option (5) exceeds
its payload length 0. -/
def c8BadStream : Stream :=
  { data := (c8Header8 ++ le32 (crc32 c8Header8)) ++ le32 3 ++ le32 5,
    supportsDeadline := false, setDeadlineOk := false }

/-- First 8 header bytes of an `HL = 5`, msgpack-flagged frame with one
payload byte. -/
def c4Header8 : List Nat := [0x51, 4, 0, 0] ++ le32 1

/-- A fully valid request frame: options `[seq = 7, method_len = 1]` and a
one-byte payload holding the method name `M`. -/
def c4Stream : Stream :=
  { data := ((c4Header8 ++ le32 (crc32 c4Header8)) ++ le32 7 ++ le32 1) ++ [77],
    supportsDeadline := false, setDeadlineOk := false }

/-- First 8 header bytes of an `HL = 3` (zero options), empty-payload
frame. -/
def c8GoodHeader8 : List Nat := [0x31, 2, 0, 0] ++ le32 0

/-- A CRC-valid frame that carries no options at all. -/
def c8GoodStream : Stream :=
  { data := c8GoodHeader8 ++ le32 (crc32 c8GoodHeader8),
    supportsDeadline := false, setDeadlineOk := false }

/-- A stream holding the sentinel followed by the two bytes `/x`. -/
def sentinelPlus : Stream :=
  { data := sentinelBytes ++ [47, 120], supportsDeadline := false, setDeadlineOk := false }

/-- A deadline-capable stream whose 12-byte header is all zeros (CRC
mismatch) followed by three trailing bytes. -/
def badCrcStream : Stream :=
  { data := List.replicate 12 0 ++ [1, 2, 3], supportsDeadline := true, setDeadlineOk := true }

/-- Libraries whose JSON marshaller always fails. -/
def jsonFailLibs : Libs :=
  { L0 with jsonMarshal := fun _ => .error (strBytes "json: unsupported type") }

/-- A codec state remembering the JSON codec for sequence id 6. -/
def stJson : CState := { table := [(6, CodecJSON)], pool := [], retained := none, sent := [] }

/-- A response for sequence id 6, method name byte `M`, no error. -/
def respJson : RpcResponse := { Seq := 6, ServiceMethod := [77], Error := [] }

/-! ### Helper lemmas about the table, the pools and the relay -/

/-- Looking a key up after removing it yields nothing. -/
theorem tblLookup_remove (k : Nat) (t : Table) : tblLookup k (tblRemove k t) = none := by
  induction t with
  | nil => rfl
  | cons p t ih =>
    rcases p with ⟨k2, v⟩
    by_cases h : k2 = k
    · simpa [tblRemove, List.filter_cons, h] using ih
    · simpa [tblRemove, List.filter_cons, h, tblLookup] using ih

/-- Looking a key up right after storing it yields the stored value. -/
theorem tblLookup_store (k v : Nat) (t : Table) :
    tblLookup k (tblStore k v t) = some v := by
  simp [tblStore, tblLookup]

/-- `storeCodec` always leaves an entry for the stored sequence id. -/
theorem storeCodec_isSome (seq flag : Nat) (t : Table) :
    (tblLookup seq (storeCodec seq flag t)).isSome = true := by
  unfold storeCodec
  repeat' split
  all_goals simp [tblLookup_store]

/-- Taking a frame from the pool does not touch the codec table. -/
theorem getFrame_table (st : CState) : (getFrame st).2.table = st.table := by
  unfold getFrame
  split <;> rfl

/-- Taking a frame from the pool does not touch the sent list. -/
theorem getFrame_sent (st : CState) : (getFrame st).2.sent = st.sent := by
  unfold getFrame
  split <;> rfl

/-- When every pooled frame is pristine, the frame taken from the pool is
pristine (the pool's `New` also yields a pristine frame). -/
theorem getFrame_fst (st : CState) (hpool : ∀ g ∈ st.pool, g = Frame.NewFrame) :
    (getFrame st).1 = Frame.NewFrame := by
  cases hp : st.pool with
  | nil => simp [getFrame, hp]
  | cons g rest => simpa [getFrame, hp] using hpool g (by simp [hp])

/-- On every path through `WriteResponse` — error handler, marshal failure,
send, or panic — the codec table ends up with the entry for the response's
sequence id removed, and nothing else changed. -/
theorem writeResponse_table (L : Libs) (r : RpcResponse) (b : Body) (st : CState) :
    ((writeResponse L r b st).2).table = tblRemove r.Seq st.table := by
  unfold writeResponse writeResponseCore handleError tblLoadAndDelete putFrame
  cases hp : st.pool <;>
    simp [getFrame, hp] <;>
    repeat' (first | split | rfl)

/-- A successful `ReadRequestHeader` leaves the table equal to `storeCodec`
applied for the returned request's sequence id. -/
theorem readRequestHeader_ok_table (st : CState) (s : Stream) (req : RpcRequest)
    (st2 : CState) (s2 : Stream)
    (h : readRequestHeader st s = (.ok req, st2, s2)) :
    ∃ fl, st2.table = storeCodec req.Seq fl st.table := by
  unfold readRequestHeader at h
  rcases hg : getFrame st with ⟨f0, st1⟩
  rw [hg] at h
  dsimp only at h
  rcases hrc : ReceiveFrame s f0 with ⟨res, f2, s3⟩
  rw [hrc] at h
  have hst1 : st1.table = st.table := by
    have := getFrame_table st
    rw [hg] at this
    exact this
  cases res with
  | ok u =>
    simp only at h
    split at h
    · simp [putFrame] at h
    · split at h
      · simp at h
      · simp only [Prod.mk.injEq, GoResult.ok.injEq] at h
        obtain ⟨hreq, hst, _⟩ := h
        refine ⟨f2.ReadFlags, ?_⟩
        rw [← hst, ← hreq, hst1]
  | err e => simp [putFrame] at h
  | panic m => simp at h

/-- Reading exactly the bytes that sit at the front of the stream succeeds
and consumes them. -/
theorem readFull_exact (s : Stream) (n : Nat) (l r : List Nat)
    (hd : s.data = l ++ r) (hl : l.length = n) :
    readFull s n = (.ok l, { s with data := r }) := by
  subst hl
  simp [readFull, hd, List.take_left, List.drop_left]

/-- A CRC mismatch over the first 8 header bytes makes `VerifyCRC` false,
with or without appended option bytes. -/
theorem verifyCRC_false (h12 opts : List Nat) (p : List Nat)
    (h12len : h12.length = 12)
    (hcrc : crc32 (h12.take 8) ≠ readLE32 ((h12.drop 8).take 4)) :
    Frame.VerifyCRC { header := h12 ++ opts, payload := p } = false := by
  unfold Frame.VerifyCRC
  rw [List.take_append_of_le_length (by omega),
      List.drop_append_of_le_length (by omega),
      List.take_append_of_le_length (by simp [h12len])]
  simpa using hcrc

/-! ### Theorems for the claims -/

/-- C1: calling `WriteResponse` with an empty `response.error` and no codec
table entry for the sequence id does not fall back to a gob-encoded
`CODEC_GOB` frame: the source evaluates `codec.(byte)` on the nil interface
returned by `LoadAndDelete` and panics, and no frame is sent.  The comment
"fallback codec" and the `CODEC_GOB` flag written just before show the gob
fallback was the intent, so this is a bug in the code. -/
theorem c1_gob_fallback_panics :
    (writeResponse L0 { Seq := 9, ServiceMethod := [77], Error := [] }
        (Body.value 0) st0).1
      = .panic "interface conversion: interface is nil, not byte"
    ∧ (writeResponse L0 { Seq := 9, ServiceMethod := [77], Error := [] }
        (Body.value 0) st0).2.sent = [] := by
  decide

/-- C3: a receive whose CRC-valid header announces `payload_length = 5` but
whose stream ends before any payload byte returns success with the payload
never written: the source's EOF branch returns the stale `err` variable,
which is `nil` there, instead of the EOF from the payload read.  The claim
(EOF must surface) matches the spec and the surrounding code's intent; the
code returns success. -/
theorem c3_eof_mid_payload_returns_ok :
    (ReceiveFrame truncStream Frame.NewFrame).1 = .ok ()
    ∧ (ReceiveFrame truncStream Frame.NewFrame).2.1.Payload = []
    ∧ (ReceiveFrame truncStream Frame.NewFrame).2.1.ReadPayloadLen = 5
    ∧ (ReceiveFrame truncStream Frame.NewFrame).2.1.VerifyCRC = true := by
  decide

/-- C10: a received frame that passes the structural check (exactly two
options) but whose method-name-length option exceeds the payload length
makes `ReadRequestHeader` panic with a slice-bounds violation instead of
failing with a structured error: the payload slicing is unguarded. -/
theorem c10_unguarded_slice_panics :
    (ReceiveFrame c10Stream Frame.NewFrame).1 = .ok ()
    ∧ (ReceiveFrame c10Stream Frame.NewFrame).2.1.ReadOptions = [7, 5]
    ∧ (readRequestHeader st0 c10Stream).1 = .panic "slice bounds out of range" := by
  decide

/-- C6, counterexample: when the 12 header bytes equal the sentinel but the
stream then ends, nothing can be drained and the `FILE_NOT_FOUND` error
carries the fixed text `"file not found"` — not the sentinel text
concatenated with the (empty) drained bytes, as the claim states. -/
theorem c6_empty_drain_counterexample :
    (ReceiveFrame sentinelOnly Frame.NewFrame).1
      = .err (.fileNotFound fileNotFoundMsg)
    ∧ fileNotFoundMsg ≠ sentinelBytes := by
  decide

/-- C9, counterexample: `ReadRequestBody` with a nil `out` returns success
before the deferred `putFrame` is registered, so the frame retained by the
preceding `ReadRequestHeader` is not returned to the pool: from a state with
a retained frame and an empty pool, the pool is still empty afterwards. -/
theorem c9_nil_out_counterexample :
    readRequestBody L0 none stRetained = (.ok none, stRetained)
    ∧ stRetained.retained = some Frame.NewFrame
    ∧ (readRequestBody L0 none stRetained).2.pool = [] := by
  decide

/-- C2, counterexample: when the remembered codec is msgpack and marshalling
the body fails, `WriteResponse` returns the error without calling the error
handler — no `ERROR`-flagged frame is sent to the peer (the sent list stays
empty), contradicting the claim for the msgpack codec.  The gob path behaves
the same way. -/
theorem c2_msgpack_no_error_frame_counterexample :
    (writeResponse msgpackFailLibs respMsg (Body.value 0) stMsg).1
      = .err (.opErr "goridge_write_response" (strBytes "msgpack marshal failed"))
    ∧ (writeResponse msgpackFailLibs respMsg (Body.value 0) stMsg).2.sent = [] := by
  decide

/-- C8, counterexample: a received frame with exactly two options does not
always make `ReadRequestHeader` succeed: when the method-name-length option
exceeds the payload length the call panics on the unguarded payload slice. -/
theorem c8_two_options_panic_counterexample :
    (ReceiveFrame c8BadStream Frame.NewFrame).1 = .ok ()
    ∧ (ReceiveFrame c8BadStream Frame.NewFrame).2.1.ReadOptions = [3, 5]
    ∧ (readRequestHeader st0 c8BadStream).1 = .panic "slice bounds out of range" := by
  decide

/-- C4: after a successful `ReadRequestHeader` has stored a codec for `seq`,
the table entry for `seq` is present, and after any subsequent
`WriteResponse` for that `seq` — whatever path it takes — the per-request
codec table holds no entry for `seq`.  The removal is the single
`tblLoadAndDelete` step at the top of `WriteResponse`, the embedding of
`sync.Map.LoadAndDelete`, which returns the stored value and deletes the
entry in one atomic operation. -/
theorem c4_table_entry_removed (L : Libs) (st : CState) (s : Stream)
    (req : RpcRequest) (st2 : CState) (s2 : Stream) (resp : RpcResponse) (body : Body)
    (hrd : readRequestHeader st s = (.ok req, st2, s2))
    (hseq : resp.Seq = req.Seq) :
    (tblLookup req.Seq st2.table).isSome = true
    ∧ tblLookup req.Seq ((writeResponse L resp body st2).2).table = none := by
  obtain ⟨fl, htab⟩ := readRequestHeader_ok_table st s req st2 s2 hrd
  constructor
  · rw [htab]
    exact storeCodec_isSome req.Seq fl st.table
  · rw [writeResponse_table, hseq, tblLookup_remove]

/-- Witness for C4 at a concrete valid request frame with `seq = 7`. -/
theorem c4_witness :
    (tblLookup 7 ((readRequestHeader st0 c4Stream).2.1).table).isSome = true
    ∧ tblLookup 7 ((writeResponse L0 { Seq := 7, ServiceMethod := [77], Error := [] }
        (Body.value 0) (readRequestHeader st0 c4Stream).2.1).2).table = none :=
  c4_table_entry_removed L0 st0 c4Stream { Seq := 7, ServiceMethod := [77] }
    (readRequestHeader st0 c4Stream).2.1 (readRequestHeader st0 c4Stream).2.2
    { Seq := 7, ServiceMethod := [77], Error := [] } (Body.value 0) (by decide) rfl

/-- C5: `WriteResponse` always serializes with the codec remembered in the
per-request table for the response's sequence id, whatever the body's
concrete type.  Conjunct 1: a received flag byte carrying the msgpack bit
(and none of the higher-precedence proto, JSON or raw bits) is remembered
as `CODEC_MSGPACK`.  Conjuncts 2..6: for each of the five rememberable
codecs, a successful marshal makes `WriteResponse` send a frame flagged
with exactly that codec whose payload is the method name followed by that
codec's output. -/
theorem c5_codec_memory (L : Libs) (st : CState) (resp : RpcResponse)
    (body : Body) (d bs : List Nat)
    (hpool : ∀ g ∈ st.pool, g = Frame.NewFrame)
    (herr : resp.Error = []) :
    (∀ flag t, flag &&& CodecMsgpack ≠ 0 → flag &&& CodecProto = 0 →
      flag &&& CodecJSON = 0 → flag &&& CodecRaw = 0 →
      storeCodec resp.Seq flag t = tblStore resp.Seq CodecMsgpack t)
    ∧ (tblLookup resp.Seq st.table = some CodecMsgpack →
      L.msgpackMarshal body = .ok d →
      (writeResponse L resp body st).1 = .ok ()
      ∧ ∃ fr, (writeResponse L resp body st).2.sent = st.sent ++ [fr]
          ∧ fr.ReadFlags = CodecMsgpack ∧ fr.Payload = resp.ServiceMethod ++ d)
    ∧ (tblLookup resp.Seq st.table = some CodecProto →
      L.isProtoMessage body = true → L.protoMarshal body = .ok d →
      (writeResponse L resp body st).1 = .ok ()
      ∧ ∃ fr, (writeResponse L resp body st).2.sent = st.sent ++ [fr]
          ∧ fr.ReadFlags = CodecProto ∧ fr.Payload = resp.ServiceMethod ++ d)
    ∧ (tblLookup resp.Seq st.table = some CodecJSON →
      L.jsonMarshal body = .ok d →
      (writeResponse L resp body st).1 = .ok ()
      ∧ ∃ fr, (writeResponse L resp body st).2.sent = st.sent ++ [fr]
          ∧ fr.ReadFlags = CodecJSON ∧ fr.Payload = resp.ServiceMethod ++ d)
    ∧ (tblLookup resp.Seq st.table = some CodecRaw →
      body = Body.byteSlice bs →
      (writeResponse L resp body st).1 = .ok ()
      ∧ ∃ fr, (writeResponse L resp body st).2.sent = st.sent ++ [fr]
          ∧ fr.ReadFlags = CodecRaw ∧ fr.Payload = resp.ServiceMethod ++ bs)
    ∧ (tblLookup resp.Seq st.table = some CodecGob →
      L.gobEncode body = .ok d →
      (writeResponse L resp body st).1 = .ok ()
      ∧ ∃ fr, (writeResponse L resp body st).2.sent = st.sent ++ [fr]
          ∧ fr.ReadFlags = CodecGob ∧ fr.Payload = resp.ServiceMethod ++ d) := by
  rcases hg : getFrame st with ⟨f0, st1⟩
  have hf0 : f0 = Frame.NewFrame := by
    have := getFrame_fst st hpool
    rw [hg] at this
    exact this
  subst hf0
  have hst1tab : st1.table = st.table := by
    have := getFrame_table st
    rw [hg] at this
    exact this
  have hst1sent : st1.sent = st.sent := by
    have := getFrame_sent st
    rw [hg] at this
    exact this
  refine ⟨?_, ?_, ?_, ?_, ?_, ?_⟩
  · intro flag t hmsgflag hp hj hr
    simp [storeCodec, hp, hj, hr, hmsgflag]
  · intro hlk hmar
    unfold writeResponse writeResponseCore
    rw [hg]
    dsimp only [tblLoadAndDelete]
    rw [hst1tab, hlk]
    dsimp only
    rw [if_neg (by simp [herr])]
    simp only [CodecProto, CodecRaw, CodecJSON, CodecMsgpack, CodecGob]
    have e1 : (4 : Nat) &&& 16 = 0 := by decide
    have e2 : (4 : Nat) &&& 1 = 0 := by decide
    have e3 : (4 : Nat) &&& 2 = 0 := by decide
    have e4 : (4 : Nat) &&& 4 = 4 := by decide
    simp only [e1, e2, e3, e4, ne_eq]
    norm_num
    rw [hmar]
    dsimp only [putFrame]
    refine ⟨rfl, ?_⟩
    refine ⟨(((((Frame.NewFrame.WriteOptions
        [resp.Seq % 4294967296, resp.ServiceMethod.length % 4294967296]).WriteVersion
        Version1).WriteFlags 4).WritePayloadLen
        (resp.ServiceMethod.length + d.length)).WritePayload
        (resp.ServiceMethod ++ d)).WriteCRC, ?_, ?_, ?_⟩
    · rw [hst1sent]
    · simp [Frame.ReadFlags, Frame.WriteCRC, Frame.WritePayload, Frame.WritePayloadLen,
        Frame.WriteFlags, Frame.WriteVersion, Frame.WriteOptions, Frame.writeHL,
        Frame.ReadHL, Frame.NewFrame, le32, List.getD]
    · rfl
  · intro hlk hpm hmar
    unfold writeResponse writeResponseCore
    rw [hg]
    dsimp only [tblLoadAndDelete]
    rw [hst1tab, hlk]
    dsimp only
    rw [if_neg (by simp [herr])]
    simp only [CodecProto, CodecRaw, CodecJSON, CodecMsgpack, CodecGob]
    have e1 : (16 : Nat) &&& 16 = 16 := by decide
    simp only [e1, ne_eq]
    norm_num
    rw [hpm, if_pos rfl, hmar]
    dsimp only [putFrame]
    refine ⟨rfl, ?_⟩
    refine ⟨(((((Frame.NewFrame.WriteOptions
        [resp.Seq % 4294967296, resp.ServiceMethod.length % 4294967296]).WriteVersion
        Version1).WriteFlags 16).WritePayloadLen
        (resp.ServiceMethod.length + d.length)).WritePayload
        (resp.ServiceMethod ++ d)).WriteCRC, ?_, ?_, ?_⟩
    · rw [hst1sent]
    · simp [Frame.ReadFlags, Frame.WriteCRC, Frame.WritePayload, Frame.WritePayloadLen,
        Frame.WriteFlags, Frame.WriteVersion, Frame.WriteOptions, Frame.writeHL,
        Frame.ReadHL, Frame.NewFrame, le32, List.getD]
    · rfl
  · intro hlk hmar
    unfold writeResponse writeResponseCore
    rw [hg]
    dsimp only [tblLoadAndDelete]
    rw [hst1tab, hlk]
    dsimp only
    rw [if_neg (by simp [herr])]
    simp only [CodecProto, CodecRaw, CodecJSON, CodecMsgpack, CodecGob]
    have e1 : (2 : Nat) &&& 16 = 0 := by decide
    have e2 : (2 : Nat) &&& 1 = 0 := by decide
    have e3 : (2 : Nat) &&& 2 = 2 := by decide
    simp only [e1, e2, e3, ne_eq]
    norm_num
    rw [hmar]
    dsimp only [putFrame]
    refine ⟨rfl, ?_⟩
    refine ⟨(((((Frame.NewFrame.WriteOptions
        [resp.Seq % 4294967296, resp.ServiceMethod.length % 4294967296]).WriteVersion
        Version1).WriteFlags 2).WritePayloadLen
        (resp.ServiceMethod.length + d.length)).WritePayload
        (resp.ServiceMethod ++ d)).WriteCRC, ?_, ?_, ?_⟩
    · rw [hst1sent]
    · simp [Frame.ReadFlags, Frame.WriteCRC, Frame.WritePayload, Frame.WritePayloadLen,
        Frame.WriteFlags, Frame.WriteVersion, Frame.WriteOptions, Frame.writeHL,
        Frame.ReadHL, Frame.NewFrame, le32, List.getD]
    · rfl
  · intro hlk hbody
    unfold writeResponse writeResponseCore
    rw [hg]
    dsimp only [tblLoadAndDelete]
    rw [hst1tab, hlk, hbody]
    dsimp only
    rw [if_neg (by simp [herr])]
    simp only [CodecProto, CodecRaw, CodecJSON, CodecMsgpack, CodecGob]
    have e1 : (1 : Nat) &&& 16 = 0 := by decide
    have e2 : (1 : Nat) &&& 1 = 1 := by decide
    simp only [e1, e2, ne_eq]
    norm_num
    dsimp only [putFrame]
    try refine ⟨rfl, ?_⟩
    refine ⟨(((((Frame.NewFrame.WriteOptions
        [resp.Seq % 4294967296, resp.ServiceMethod.length % 4294967296]).WriteVersion
        Version1).WriteFlags 1).WritePayloadLen
        (resp.ServiceMethod.length + bs.length)).WritePayload
        (resp.ServiceMethod ++ bs)).WriteCRC, ?_, ?_, ?_⟩
    · rw [hst1sent]
    · simp [Frame.ReadFlags, Frame.WriteCRC, Frame.WritePayload, Frame.WritePayloadLen,
        Frame.WriteFlags, Frame.WriteVersion, Frame.WriteOptions, Frame.writeHL,
        Frame.ReadHL, Frame.NewFrame, le32, List.getD]
    · rfl
  · intro hlk hmar
    unfold writeResponse writeResponseCore
    rw [hg]
    dsimp only [tblLoadAndDelete]
    rw [hst1tab, hlk]
    dsimp only
    rw [if_neg (by simp [herr])]
    simp only [CodecProto, CodecRaw, CodecJSON, CodecMsgpack, CodecGob]
    have e1 : (8 : Nat) &&& 16 = 0 := by decide
    have e2 : (8 : Nat) &&& 1 = 0 := by decide
    have e3 : (8 : Nat) &&& 2 = 0 := by decide
    have e4 : (8 : Nat) &&& 4 = 0 := by decide
    have e5 : (8 : Nat) &&& 8 = 8 := by decide
    simp only [e1, e2, e3, e4, e5, ne_eq]
    norm_num
    rw [hmar]
    dsimp only [putFrame]
    refine ⟨rfl, ?_⟩
    refine ⟨(((((Frame.NewFrame.WriteOptions
        [resp.Seq % 4294967296, resp.ServiceMethod.length % 4294967296]).WriteVersion
        Version1).WriteFlags 8).WritePayloadLen
        (resp.ServiceMethod.length + d.length)).WritePayload
        (resp.ServiceMethod ++ d)).WriteCRC, ?_, ?_, ?_⟩
    · rw [hst1sent]
    · simp [Frame.ReadFlags, Frame.WriteCRC, Frame.WritePayload, Frame.WritePayloadLen,
        Frame.WriteFlags, Frame.WriteVersion, Frame.WriteOptions, Frame.writeHL,
        Frame.ReadHL, Frame.NewFrame, le32, List.getD]
    · rfl

/-- Witness for C5: with the msgpack codec remembered for `seq = 5`, the
response body is msgpack-serialized into the sent frame. -/
theorem c5_witness :
    (writeResponse L0 respMsg (Body.value 0) stMsg).1 = .ok ()
    ∧ ∃ fr, (writeResponse L0 respMsg (Body.value 0) stMsg).2.sent = stMsg.sent ++ [fr]
        ∧ fr.ReadFlags = CodecMsgpack
        ∧ fr.Payload = respMsg.ServiceMethod ++ [] :=
  (c5_codec_memory L0 stMsg respMsg (Body.value 0) [] []
    (by simp [stMsg]) rfl).2.1 (by decide) rfl

/-- C2 as amended: marshal failures under the proto, JSON and raw codecs
are sent to the peer as an `ERROR`-flagged frame whose payload is the
method name followed by the error string, and an error (built from the
response's own empty error field) is returned; under the msgpack and gob
codecs the marshalling error is only returned to the caller — no frame is
sent. -/
theorem c2_write_error_handling (L : Libs) (st : CState) (resp : RpcResponse)
    (body : Body) (e : List Nat) (tag : Nat)
    (hpool : ∀ g ∈ st.pool, g = Frame.NewFrame)
    (herr : resp.Error = []) :
    (tblLookup resp.Seq st.table = some CodecProto →
      L.isProtoMessage body = true → L.protoMarshal body = .error e →
      (writeResponse L resp body st).1 = .err (.handleErrorReturn resp.Error)
      ∧ ∃ fr, (writeResponse L resp body st).2.sent = st.sent ++ [fr]
          ∧ fr.ReadFlags = ERROR ∧ fr.Payload = resp.ServiceMethod ++ e)
    ∧ (tblLookup resp.Seq st.table = some CodecJSON →
      L.jsonMarshal body = .error e →
      (writeResponse L resp body st).1 = .err (.handleErrorReturn resp.Error)
      ∧ ∃ fr, (writeResponse L resp body st).2.sent = st.sent ++ [fr]
          ∧ fr.ReadFlags = ERROR ∧ fr.Payload = resp.ServiceMethod ++ e)
    ∧ (tblLookup resp.Seq st.table = some CodecRaw →
      body = Body.value tag →
      (writeResponse L resp body st).1 = .err (.handleErrorReturn resp.Error)
      ∧ ∃ fr, (writeResponse L resp body st).2.sent = st.sent ++ [fr]
          ∧ fr.ReadFlags = ERROR ∧ fr.Payload = resp.ServiceMethod ++ unknownRawMsg)
    ∧ (tblLookup resp.Seq st.table = some CodecMsgpack →
      L.msgpackMarshal body = .error e →
      (writeResponse L resp body st).1 = .err (.opErr "goridge_write_response" e)
      ∧ (writeResponse L resp body st).2.sent = st.sent)
    ∧ (tblLookup resp.Seq st.table = some CodecGob →
      L.gobEncode body = .error e →
      (writeResponse L resp body st).1 = .err (.opErr "goridge_write_response" e)
      ∧ (writeResponse L resp body st).2.sent = st.sent) := by
  rcases hg : getFrame st with ⟨f0, st1⟩
  have hf0 : f0 = Frame.NewFrame := by
    have := getFrame_fst st hpool
    rw [hg] at this
    exact this
  subst hf0
  have hst1tab : st1.table = st.table := by
    have := getFrame_table st
    rw [hg] at this
    exact this
  have hst1sent : st1.sent = st.sent := by
    have := getFrame_sent st
    rw [hg] at this
    exact this
  refine ⟨?_, ?_, ?_, ?_, ?_⟩
  · intro hlk hpm hmar
    unfold writeResponse writeResponseCore
    rw [hg]
    dsimp only [tblLoadAndDelete]
    rw [hst1tab, hlk]
    dsimp only
    rw [if_neg (by simp [herr])]
    simp only [CodecProto, CodecRaw, CodecJSON, CodecMsgpack, CodecGob, ERROR]
    have e1 : (16 : Nat) &&& 16 = 16 := by decide
    simp only [e1, ne_eq]
    norm_num
    rw [hpm, if_pos rfl, hmar]
    dsimp only [handleError, putFrame]
    refine ⟨rfl, ?_⟩
    refine ⟨((((((Frame.NewFrame.WriteOptions
        [resp.Seq % 4294967296, resp.ServiceMethod.length % 4294967296]).WriteVersion
        Version1).WriteFlags 16).WriteFlags ERROR).WritePayloadLen
        (resp.ServiceMethod ++ e).length).WritePayload
        (resp.ServiceMethod ++ e)).WriteCRC, ?_, ?_, ?_⟩
    · rw [hst1sent]
    · simp [Frame.ReadFlags, Frame.WriteCRC, Frame.WritePayload, Frame.WritePayloadLen,
        Frame.WriteFlags, Frame.WriteVersion, Frame.WriteOptions, Frame.writeHL,
        Frame.ReadHL, Frame.NewFrame, le32, List.getD, ERROR]
    · rfl
  · intro hlk hmar
    unfold writeResponse writeResponseCore
    rw [hg]
    dsimp only [tblLoadAndDelete]
    rw [hst1tab, hlk]
    dsimp only
    rw [if_neg (by simp [herr])]
    simp only [CodecProto, CodecRaw, CodecJSON, CodecMsgpack, CodecGob, ERROR]
    have e1 : (2 : Nat) &&& 16 = 0 := by decide
    have e2 : (2 : Nat) &&& 1 = 0 := by decide
    have e3 : (2 : Nat) &&& 2 = 2 := by decide
    simp only [e1, e2, e3, ne_eq]
    norm_num
    rw [hmar]
    dsimp only [handleError, putFrame]
    refine ⟨rfl, ?_⟩
    refine ⟨((((((Frame.NewFrame.WriteOptions
        [resp.Seq % 4294967296, resp.ServiceMethod.length % 4294967296]).WriteVersion
        Version1).WriteFlags 2).WriteFlags ERROR).WritePayloadLen
        (resp.ServiceMethod ++ e).length).WritePayload
        (resp.ServiceMethod ++ e)).WriteCRC, ?_, ?_, ?_⟩
    · rw [hst1sent]
    · simp [Frame.ReadFlags, Frame.WriteCRC, Frame.WritePayload, Frame.WritePayloadLen,
        Frame.WriteFlags, Frame.WriteVersion, Frame.WriteOptions, Frame.writeHL,
        Frame.ReadHL, Frame.NewFrame, le32, List.getD, ERROR]
    · rfl
  · intro hlk hbody
    unfold writeResponse writeResponseCore
    rw [hg]
    dsimp only [tblLoadAndDelete]
    rw [hst1tab, hlk, hbody]
    dsimp only
    rw [if_neg (by simp [herr])]
    simp only [CodecProto, CodecRaw, CodecJSON, CodecMsgpack, CodecGob, ERROR]
    have e1 : (1 : Nat) &&& 16 = 0 := by decide
    have e2 : (1 : Nat) &&& 1 = 1 := by decide
    simp only [e1, e2, ne_eq]
    norm_num
    dsimp only [handleError, putFrame]
    refine ⟨rfl, ?_⟩
    refine ⟨((((((Frame.NewFrame.WriteOptions
        [resp.Seq % 4294967296, resp.ServiceMethod.length % 4294967296]).WriteVersion
        Version1).WriteFlags 1).WriteFlags ERROR).WritePayloadLen
        (resp.ServiceMethod ++ unknownRawMsg).length).WritePayload
        (resp.ServiceMethod ++ unknownRawMsg)).WriteCRC, ?_, ?_, ?_⟩
    · rw [hst1sent]
    · simp [Frame.ReadFlags, Frame.WriteCRC, Frame.WritePayload, Frame.WritePayloadLen,
        Frame.WriteFlags, Frame.WriteVersion, Frame.WriteOptions, Frame.writeHL,
        Frame.ReadHL, Frame.NewFrame, le32, List.getD, ERROR]
    · rfl
  · intro hlk hmar
    unfold writeResponse writeResponseCore
    rw [hg]
    dsimp only [tblLoadAndDelete]
    rw [hst1tab, hlk]
    dsimp only
    rw [if_neg (by simp [herr])]
    simp only [CodecProto, CodecRaw, CodecJSON, CodecMsgpack, CodecGob, ERROR]
    have e1 : (4 : Nat) &&& 16 = 0 := by decide
    have e2 : (4 : Nat) &&& 1 = 0 := by decide
    have e3 : (4 : Nat) &&& 2 = 0 := by decide
    have e4 : (4 : Nat) &&& 4 = 4 := by decide
    simp only [e1, e2, e3, e4, ne_eq]
    norm_num
    rw [hmar]
    dsimp only [putFrame]
    exact ⟨rfl, hst1sent⟩
  · intro hlk hmar
    unfold writeResponse writeResponseCore
    rw [hg]
    dsimp only [tblLoadAndDelete]
    rw [hst1tab, hlk]
    dsimp only
    rw [if_neg (by simp [herr])]
    simp only [CodecProto, CodecRaw, CodecJSON, CodecMsgpack, CodecGob, ERROR]
    have e1 : (8 : Nat) &&& 16 = 0 := by decide
    have e2 : (8 : Nat) &&& 1 = 0 := by decide
    have e3 : (8 : Nat) &&& 2 = 0 := by decide
    have e4 : (8 : Nat) &&& 4 = 0 := by decide
    have e5 : (8 : Nat) &&& 8 = 8 := by decide
    simp only [e1, e2, e3, e4, e5, ne_eq]
    norm_num
    rw [hmar]
    dsimp only [putFrame]
    exact ⟨rfl, hst1sent⟩

/-- Witness for C2 (amended): a failing JSON marshal for `seq = 6` sends an
ERROR-flagged frame with the method name and the error text, and returns
an error. -/
theorem c2_witness :
    (writeResponse jsonFailLibs respJson (Body.value 0) stJson).1
      = .err (.handleErrorReturn respJson.Error)
    ∧ ∃ fr, (writeResponse jsonFailLibs respJson (Body.value 0) stJson).2.sent
          = stJson.sent ++ [fr]
        ∧ fr.ReadFlags = ERROR
        ∧ fr.Payload = respJson.ServiceMethod ++ strBytes "json: unsupported type" :=
  (c2_write_error_handling jsonFailLibs stJson respJson (Body.value 0)
      (strBytes "json: unsupported type") 0 (by simp [stJson]) rfl).2.1
    (by decide) rfl

/-- C6 as amended: foreign-output detection triggers exactly when the 12
header bytes equal the sentinel; when at least one further byte can be
drained the `FILE_NOT_FOUND` message is the sentinel concatenated with the
drained bytes, and when nothing can be drained the message is the fixed
text `"file not found"`.  A non-sentinel header never produces
`FILE_NOT_FOUND`, so a sentinel inside a frame's payload cannot trigger
detection. -/
theorem c6_sentinel_detection (s : Stream) (fr : Frame) :
    (∀ rest, s.data = sentinelBytes ++ rest → rest ≠ [] →
      (ReceiveFrame s fr).1 = .err (.fileNotFound (sentinelBytes ++ rest)))
    ∧ (s.data = sentinelBytes →
      (ReceiveFrame s fr).1 = .err (.fileNotFound fileNotFoundMsg))
    ∧ (∀ h12 rest, s.data = h12 ++ rest → h12.length = 12 → h12 ≠ sentinelBytes →
      ∀ m, (ReceiveFrame s fr).1 ≠ .err (.fileNotFound m)) := by
  refine ⟨?_, ?_, ?_⟩
  · intro rest hd hne
    unfold ReceiveFrame
    rw [readFull_exact s 12 sentinelBytes rest hd (by decide)]
    dsimp only
    rw [if_pos rfl]
    simp [readAll, List.length_pos, hne]
  · intro hd
    unfold ReceiveFrame
    rw [readFull_exact s 12 sentinelBytes [] (by simpa using hd) (by decide)]
    dsimp only
    rw [if_pos rfl]
    simp [readAll]
  · intro h12 rest hd hlen hsent m
    unfold ReceiveFrame
    rw [readFull_exact s 12 h12 rest hd hlen]
    dsimp only
    rw [if_neg hsent]
    split
    · rename_i heq
      split at heq
      · split at heq
        all_goals try simp_all
        all_goals (obtain ⟨h1, h2, h3⟩ := heq; subst h1; simp)
      · simp_all
    · rename_i heq
      simp
    · split
      · split
        · simp
        · split <;> simp
      · split
        · split <;> simp [readAll]
        · simp

/-- Witness for C6 (amended): the sentinel followed by two drainable bytes
yields `FILE_NOT_FOUND` whose message is the sentinel plus those bytes. -/
theorem c6_witness :
    (ReceiveFrame sentinelPlus Frame.NewFrame).1
      = .err (.fileNotFound (sentinelBytes ++ [47, 120])) :=
  (c6_sentinel_detection sentinelPlus Frame.NewFrame).1 [47, 120] rfl (by decide)

/-- C7: when the header CRC check fails, `ReceiveFrame` fails with the
`VALIDATION_FAILED` error.  On a deadline-capable stream whose deadline
call succeeds, a 2-second read deadline is recorded, the remaining bytes
are drained, and the message holds the raw header (options included) plus
the drained bytes; without deadline support — or when setting the deadline
fails — the message holds just the header bytes. -/
theorem c7_crc_failure (s : Stream) (fr : Frame) (h12 opts rest : List Nat)
    (hd : s.data = h12 ++ opts ++ rest)
    (h12len : h12.length = 12)
    (hsent : h12 ≠ sentinelBytes)
    (hopts : opts.length = (h12.getD 0 0 / 16 - 3) * WORD)
    (hcrc : crc32 (h12.take 8) ≠ readLE32 ((h12.drop 8).take 4)) :
    (s.supportsDeadline = true → s.setDeadlineOk = true →
      (ReceiveFrame s fr).1 = .err (.validationFailed ((h12 ++ opts) ++ rest))
      ∧ (ReceiveFrame s fr).2.2.deadline = some 2)
    ∧ (s.supportsDeadline = true → s.setDeadlineOk = false →
      (ReceiveFrame s fr).1 = .err (.validationFailed (h12 ++ opts)))
    ∧ (s.supportsDeadline = false →
      (ReceiveFrame s fr).1 = .err (.validationFailed (h12 ++ opts))) := by
  have hd2 : s.data = h12 ++ (opts ++ rest) := by rw [hd, List.append_assoc]
  unfold ReceiveFrame
  rw [readFull_exact s 12 h12 (opts ++ rest) hd2 h12len]
  dsimp only
  rw [if_neg hsent]
  by_cases hhl : 3 < Frame.ReadHL { header := h12, payload := fr.payload }
  · rw [if_pos hhl]
    rw [readFull_exact _ _ opts rest rfl (by simpa [Frame.ReadHL] using hopts)]
    simp only [Frame.AppendOptions]
    rw [verifyCRC_false h12 opts _ h12len hcrc]
    simp only [Bool.false_eq_true, if_false]
    refine ⟨?_, ?_, ?_⟩
    · intro hsd hok
      simp [hsd, hok, readAll]
    · intro hsd hok
      simp [hsd, hok]
    · intro hsd
      simp [hsd]
  · rw [if_neg hhl]
    have hhl2 : ¬ 3 < h12.getD 0 0 / 16 := hhl
    have hopts0 : opts = [] := by
      have hz : h12.getD 0 0 / 16 - 3 = 0 := Nat.sub_eq_zero_of_le (Nat.not_lt.mp hhl2)
      have hlen0 : opts.length = 0 := by rw [hopts, hz]; rfl
      exact List.eq_nil_of_length_eq_zero hlen0
    subst hopts0
    have hvc := verifyCRC_false h12 [] fr.payload h12len hcrc
    rw [List.append_nil] at hvc
    refine ⟨?_, ?_, ?_⟩
    · intro hsd hok
      simp [hsd, hok, readAll, hvc]
    · intro hsd hok
      simp [hsd, hok, hvc]
    · intro hsd
      simp [hsd, hvc]

/-- Witness for C7 at a deadline-capable stream with an all-zero header and
three trailing bytes. -/
theorem c7_witness :
    (ReceiveFrame badCrcStream Frame.NewFrame).1
      = .err (.validationFailed ((List.replicate 12 0 ++ []) ++ [1, 2, 3]))
    ∧ (ReceiveFrame badCrcStream Frame.NewFrame).2.2.deadline = some 2 :=
  (c7_crc_failure badCrcStream Frame.NewFrame (List.replicate 12 0) [] [1, 2, 3]
    (by decide) (by decide) (by decide) (by decide) (by decide)).1 rfl rfl

/-- C8 as amended: after a successful receive, an option count other than
two makes `ReadRequestHeader` fail with the structural `INVALID_FRAME`
error and return the frame to the pool; with exactly two options it
succeeds — with the sequence id from option 0 and the method name from the
first option-1 payload bytes — provided the method-name length does not
exceed the payload length (otherwise the unguarded slice panics, see the
counterexample). -/
theorem c8_option_count (st : CState) (s : Stream) (f2 : Frame) (s2 : Stream)
    (hpool : ∀ g ∈ st.pool, g = Frame.NewFrame)
    (hrc : ReceiveFrame s Frame.NewFrame = (.ok (), f2, s2)) :
    (f2.ReadOptions.length ≠ 2 →
      (readRequestHeader st s).1 = .err .invalidFrame
      ∧ ((readRequestHeader st s).2.1).pool = Frame.NewFrame :: (getFrame st).2.pool)
    ∧ (∀ a b, f2.ReadOptions = [a, b] → b ≤ f2.Payload.length →
      (readRequestHeader st s).1
        = .ok { Seq := a, ServiceMethod := f2.Payload.take b }) := by
  have hget := getFrame_fst st hpool
  unfold readRequestHeader
  rcases hg : getFrame st with ⟨f0, st1⟩
  rw [hg] at hget
  dsimp only at hget
  subst hget
  dsimp only
  rw [hrc]
  dsimp only
  constructor
  · intro hne
    simp [hne, putFrame, Frame.Reset]
  · intro a b hopts hle
    simp [hopts, Nat.not_lt.mpr hle]

/-- Witness for C8 (amended): a received zero-option frame produces
`INVALID_FRAME` with the frame pooled again, and a received frame with
options `[7, 1]` over a one-byte payload yields the request `seq = 7`,
method `M`. -/
theorem c8_witness :
    ((readRequestHeader st0 c8GoodStream).1 = .err .invalidFrame
      ∧ ((readRequestHeader st0 c8GoodStream).2.1).pool
          = Frame.NewFrame :: (getFrame st0).2.pool)
    ∧ (readRequestHeader st0 c4Stream).1 = .ok { Seq := 7, ServiceMethod := [77] } := by
  constructor
  · exact (c8_option_count st0 c8GoodStream
      (ReceiveFrame c8GoodStream Frame.NewFrame).2.1
      (ReceiveFrame c8GoodStream Frame.NewFrame).2.2
      (by simp [st0]) (by decide)).1 (by decide)
  · have h := (c8_option_count st0 c4Stream
      (ReceiveFrame c4Stream Frame.NewFrame).2.1
      (ReceiveFrame c4Stream Frame.NewFrame).2.2
      (by simp [st0]) (by decide)).2 7 1 (by decide) (by decide)
    rw [(by decide : ((ReceiveFrame c4Stream Frame.NewFrame).2.1.Payload).take 1 = [77])] at h
    exact h

/-- C9 as amended: every `ReadRequestBody` call with a non-nil `out`
returns the retained frame to the pool on exit, whatever path it takes;
the nil-`out` call returns success without touching the state, so the
retained frame is not pooled on that one path. -/
theorem c9_frame_pooling (L : Libs) (body : Body) (st : CState) (f : Frame)
    (hret : st.retained = some f) :
    ((readRequestBody L (some body) st).2).pool = Frame.NewFrame :: st.pool
    ∧ readRequestBody L none st = (.ok none, st) := by
  constructor
  · simp [readRequestBody, hret, putFrame, Frame.Reset]
  · rfl

/-- Witness for C9 (amended) at a state holding a retained frame. -/
theorem c9_witness :
    ((readRequestBody L0 (some (Body.value 0)) stRetained).2).pool
        = Frame.NewFrame :: stRetained.pool
    ∧ readRequestBody L0 none stRetained = (.ok none, stRetained) :=
  c9_frame_pooling L0 (Body.value 0) stRetained Frame.NewFrame rfl

end Goridge
